import Mathlib

/-!
Verification of the MST MDSplus client library (`mst/mdsplus.py`).

The development shallowly embeds the library.  The pure shot-number /
calendar arithmetic (`min_shot_for_date`, `max_shot_for_date`,
`shot_to_date`, `shot_valid`) is translated directly into Lean functions
over `Int` (Python 2 `/` on ints is floor division and `%` is the
nonnegative remainder for positive divisors, which is exactly `Int`'s
`/` and `%` in Lean).  The stateful part (per-server connection table,
on-disk pickle cache, network calls) is embedded as explicit state
passing over a `St` record, together with an event trace (`Event`)
recording every network and cache-file operation a run performs, and an
`Env` record holding the external world: the current date, the remote
data, the md5 function, and which external operations fail.  Fallible
Python code (raising exceptions) is embedded with `Except`.
-/

namespace MST

/-- Exceptions raised by the library and its collaborators.
`valueError` is what `datetime.date` raises on an impossible date. -/
inductive Err where
  | nameError
  | connError (svr : String)
  | openError (svr tree : String) (shot : Int)
  | evalError (svr expr : String)
  | ioError (path : String)
  | unpickleError (path : String)
  | pickleError (path : String)
  | assertError
  | valueError
  deriving DecidableEq, Repr

instance {ε α : Type} [DecidableEq ε] [DecidableEq α] : DecidableEq (Except ε α) := fun a b =>
  match a, b with
  | .ok x, .ok y =>
      if h : x = y then .isTrue (by rw [h])
      else .isFalse (fun hc => h (by injection hc))
  | .error x, .error y =>
      if h : x = y then .isTrue (by rw [h])
      else .isFalse (fun hc => h (by injection hc))
  | .ok _, .error _ => .isFalse (fun hc => by injection hc)
  | .error _, .ok _ => .isFalse (fun hc => by injection hc)

/-- Whether an `Except` is a success (Python: the call returned instead of raising). -/
def isOkE {ε α : Type} : Except ε α → Bool
  | .ok _ => true
  | .error _ => false

/-- A Python `datetime.date` value: the raw `(year, month, day)` fields. -/
structure PyDate where
  year : Int
  month : Int
  day : Int
  deriving DecidableEq, Repr

/-- Gregorian leap-year rule used by Python's `datetime` module. -/
def isLeap (y : Int) : Bool :=
  (y % 4 == 0 && y % 100 != 0) || y % 400 == 0

/-- Number of days in a month, as validated by `datetime.date`. -/
def daysInMonth (y m : Int) : Int :=
  if m = 2 then (if isLeap y then 29 else 28)
  else if m = 4 ∨ m = 6 ∨ m = 9 ∨ m = 11 then 30
  else 31

/-- The validity check `datetime.date(y, m, d)` performs before
constructing a date (`MINYEAR = 1`, `MAXYEAR = 9999`). -/
def dateOk (y m d : Int) : Prop :=
  1 ≤ y ∧ y ≤ 9999 ∧ 1 ≤ m ∧ m ≤ 12 ∧ 1 ≤ d ∧ d ≤ daysInMonth y m

instance decDateOk (y m d : Int) : Decidable (dateOk y m d) := by
  unfold dateOk; infer_instance

/-- `datetime.date(y, m, d)`: returns the date or raises `ValueError`. -/
def mkDate (y m d : Int) : Except Err PyDate :=
  if dateOk y m d then .ok ⟨y, m, d⟩ else .error .valueError

/-- A `PyDate` that `datetime.date` would actually construct. -/
def PyDate.valid (dt : PyDate) : Prop := dateOk dt.year dt.month dt.day

instance decValid (dt : PyDate) : Decidable dt.valid := decDateOk dt.year dt.month dt.day

/-- `min_shot_for_date(date)` from `mdsplus.py`:
`(y % 1000 + 100) * 10000000 + m * 100000 + d * 1000 + 1`. -/
def min_shot_for_date (dt : PyDate) : Int :=
  (dt.year % 1000 + 100) * 10000000 + dt.month * 100000 + dt.day * 1000 + 1

/-- `max_shot_for_date(date)` from `mdsplus.py`: `min_shot_for_date(date) + 998`. -/
def max_shot_for_date (dt : PyDate) : Int :=
  min_shot_for_date dt + 998

/-- `shot_to_date(shot)` from `mdsplus.py`: decodes the decimal digit
fields and calls `datetime.date`, which may raise `ValueError`. -/
def shot_to_date (shot : Int) : Except Err PyDate :=
  mkDate (shot / 10000000 + 1900) ((shot / 100000) % 100) ((shot / 1000) % 100)

/-- `shot_to_date_num(shot)` and `date_to_date_num(date)` compose to
`year * 10000 + month * 100 + day` on the decoded date. -/
def date_to_date_num (dt : PyDate) : Int :=
  dt.year * 10000 + dt.month * 100 + dt.day

/-- `shot_valid(shot)` from `mdsplus.py`: range and sequence checks, then
a `try: shot_to_date(shot) except Exception: return False`. -/
def shot_valid (shot : Int) : Bool :=
  if shot > 9991212999 ∨ shot < 1000101001 ∨ shot % 1000 = 0 then false
  else
    match shot_to_date shot with
    | .ok _ => true
    | .error _ => false

/-- A live MDSplus connection object (`mds.Connection(svr)`): identified
by a creation counter so distinct constructions are distinct objects. -/
structure Conn where
  id : Nat
  svr : String
  deriving DecidableEq, Repr

/-- One observable external operation performed by the library: network
traffic (connection construction, tree close/open, remote evaluation)
or a cache-file access. -/
inductive Event where
  | mkConn (svr : String) (id : Nat)
  | connFail (svr : String)
  | closeAllTrees (connId : Nat)
  | openTree (connId : Nat) (tree : String) (shot : Int)
  | remoteEval (connId : Nat) (expr : String)
  | cacheRead (path : String)
  | cacheWrite (path : String)
  deriving DecidableEq, Repr

/-- Network operations, as opposed to local cache-file operations. -/
def Event.isNetwork : Event → Bool
  | .mkConn _ _ => true
  | .connFail _ => true
  | .closeAllTrees _ => true
  | .openTree _ _ _ => true
  | .remoteEval _ _ => true
  | .cacheRead _ => false
  | .cacheWrite _ => false

/-- Cache-file operations (reads or writes of files under the cache root). -/
def Event.isCacheOp : Event → Bool
  | .cacheRead _ => true
  | .cacheWrite _ => true
  | _ => false

/-- The external world the library runs against: the current date, the
md5 digest function, the remote data, and which external operations
fail.  Failures are deterministic functions of the operation's
arguments, standing for the environment's fixed behaviour during a run.
`Val` is the type of values the remote returns and the cache stores
(numpy array pairs / byte strings, opaque to the control flow). -/
structure Env (Val : Type) where
  today : PyDate
  homeDir : String
  md5hex : String → String
  evalData : String → String → Int → String → Val
  isSigPair : Val → Bool
  currentShotVal : Int
  connFails : String → Bool
  openFails : String → String → Int → Bool
  evalFails : String → String → Bool
  mkdirFails : String → Bool
  writeFails : String → Bool

/-- The process-wide mutable state: the three global server dictionaries
`_SVR_CONNS` / `_SVR_TREES` / `_SVR_SHOTS`, a counter of constructed
connection objects, the cache directory tree (`dirs` = directories that
exist, `files` = file contents, where `none` stands for a file whose
unpickling fails: corrupt, truncated or unreadable), and the `_AURORA`
global of `current_shot`. -/
structure St (Val : Type) where
  svrConns : List (String × Conn)
  svrTrees : List (String × String)
  svrShots : List (String × Int)
  nextId : Nat
  dirs : List String
  files : List (String × Option Val)
  aurora : Option Conn

/-- Process start: empty dictionaries, empty cache, `_AURORA` unset. -/
def initSt {Val : Type} : St Val :=
  { svrConns := [], svrTrees := [], svrShots := [], nextId := 0,
    dirs := [], files := [], aurora := none }

/-- Python dict lookup `d[k]` on an association list, `none` = `KeyError`. -/
def lookupA {α : Type} : List (String × α) → String → Option α
  | [], _ => none
  | (k', v) :: t, k => if k' = k then some v else lookupA t k

/-- Python dict assignment `d[k] = v` on an association list. -/
def putA {α : Type} (l : List (String × α)) (k : String) (v : α) : List (String × α) :=
  (k, v) :: l.filter (fun p => !(p.1 == k))

variable {Val : Type}

/-- `_get_svr_cached(svr)`: returns the cached connection, tree and shot
for the server, or `(None, None, None)` if any of the three dictionary
lookups raises `KeyError` (the bare `except` catches it). -/
def get_svr_cached (st : St Val) (svr : String) :
    Option Conn × Option String × Option Int :=
  match lookupA st.svrConns svr, lookupA st.svrTrees svr, lookupA st.svrShots svr with
  | some c, some t, some s => (some c, some t, some s)
  | _, _, _ => (none, none, none)

/-- `_update_svr_cache(svr, conn, tree, shot)`: store all three entries. -/
def update_svr_cache (st : St Val) (svr : String) (c : Conn) (tree : String)
    (shot : Int) : St Val :=
  { st with
    svrConns := putA st.svrConns svr c,
    svrTrees := putA st.svrTrees svr tree,
    svrShots := putA st.svrShots svr shot }

/-- `get_server_for_shot(shot)`: shots at or after today's first shot are
on aurora, older shots on dave. -/
def get_server_for_shot (env : Env Val) (shot : Int) : String :=
  if shot ≥ min_shot_for_date env.today then "aurora.physics.wisc.edu"
  else "dave.physics.wisc.edu"

/-- The tail of `get_connection`: if the requested `(tree, shot)` differs
from the cached pair, `closeAllTrees` (its exception, raised when no
tree is open, is swallowed by the `try/except: pass`) then
`openTree` (whose failure propagates and leaves the dictionaries
untouched); finally `_update_svr_cache` records the pair. -/
def switchAndStore (env : Env Val) (st : St Val) (c : Conn) (svr tree : String)
    (shot : Int) (t0 : Option String) (s0 : Option Int) (ev0 : List Event) :
    Except Err Conn × St Val × List Event :=
  if t0 = some tree ∧ s0 = some shot then
    (.ok c, update_svr_cache st svr c tree shot, ev0)
  else
    if env.openFails svr tree shot then
      (.error (.openError svr tree shot), st,
        ev0 ++ [.closeAllTrees c.id, .openTree c.id tree shot])
    else
      (.ok c, update_svr_cache st svr c tree shot,
        ev0 ++ [.closeAllTrees c.id, .openTree c.id tree shot])

/-- `get_connection(shot, tree)`: route to a server, reuse the cached
connection or construct a new one (`mds.Connection(svr)`, whose failure
propagates), then ensure the requested tree/shot pair is open. -/
def get_connection (env : Env Val) (st : St Val) (shot : Int) (tree : String) :
    Except Err Conn × St Val × List Event :=
  match get_svr_cached st (get_server_for_shot env shot) with
  | (some c, t0, s0) =>
      switchAndStore env st c (get_server_for_shot env shot) tree shot t0 s0 []
  | (none, _, _) =>
      if env.connFails (get_server_for_shot env shot) then
        (.error (.connError (get_server_for_shot env shot)), st,
          [.connFail (get_server_for_shot env shot)])
      else
        switchAndStore env { st with nextId := st.nextId + 1 }
          ⟨st.nextId, get_server_for_shot env shot⟩ (get_server_for_shot env shot)
          tree shot none none [.mkConn (get_server_for_shot env shot) st.nextId]

/-- The cache directory of `_cache_path`: `~/.mdsplus_cache/{tree}/{shot}/`
with `~` expanded to the user's home directory. -/
def cacheDir (env : Env Val) (tree : String) (shot : Int) : String :=
  env.homeDir ++ "/.mdsplus_cache/" ++ tree ++ "/" ++ toString shot ++ "/"

/-- The full cache file path: directory plus `hashlib.md5(expr).hexdigest()`. -/
def cacheFile (env : Env Val) (tree : String) (shot : Int) (expr : String) : String :=
  cacheDir env tree shot ++ env.md5hex expr

/-- `_load_from_cache(tree, shot, expr)`: open and unpickle the cache
file; raises if the file is absent (`IOError`) or its contents do not
unpickle (corrupt, truncated, unreadable). -/
def loadFromCache (env : Env Val) (st : St Val) (tree : String) (shot : Int)
    (expr : String) : Except Err Val × List Event :=
  let path := cacheFile env tree shot expr
  match lookupA st.files path with
  | none => (.error (.ioError path), [.cacheRead path])
  | some none => (.error (.unpickleError path), [.cacheRead path])
  | some (some v) => (.ok v, [.cacheRead path])

/-- The `open(path, 'wb')` / `cPickle.dump` step of `_save_to_cache`.
A failing dump leaves a partially written (hence unreadable) file. -/
def writeCacheFile (env : Env Val) (st : St Val) (path : String) (v : Val) :
    Except Err Unit × St Val × List Event :=
  if env.writeFails path then
    (.error (.pickleError path), { st with files := putA st.files path none },
      [.cacheWrite path])
  else
    (.ok (), { st with files := putA st.files path (some v) }, [.cacheWrite path])

/-- `_save_to_cache(tree, shot, expr, data)`: `os.makedirs` of the cache
directory if absent (failure propagates), then write the pickle. -/
def saveToCache (env : Env Val) (st : St Val) (tree : String) (shot : Int)
    (expr : String) (v : Val) : Except Err Unit × St Val × List Event :=
  let dir := cacheDir env tree shot
  let path := cacheFile env tree shot expr
  if st.dirs.contains dir then writeCacheFile env st path v
  else
    if env.mkdirFails dir then (.error (.ioError dir), st, [])
    else writeCacheFile env { st with dirs := dir :: st.dirs } path v

/-- The MDSplus expression `get_signal` sends, after `str.format`:
`[if_error(dim_of(sig), $roprand), if_error(sig, $roprand)]`. -/
def exprForSignal (signal : String) : String :=
  "[if_error(dim_of(" ++ signal ++ "), $roprand), if_error(" ++ signal ++ ", $roprand)]"

/-- The expression `get_signal_units` sends: `units(sig)`. -/
def exprForUnits (signal : String) : String :=
  "units(" ++ signal ++ ")"

/-- The network half of `get_signal`: `get_connection`, remote
`conn.get(expr).data()` (failure propagates), the two
`assert isinstance(..., np.ndarray)` checks, and, when `use_cache`
is set, `_save_to_cache` (whose failure propagates). -/
def getSignalFetch (env : Env Val) (st : St Val) (shot : Int) (signal tree : String)
    (useCache : Bool) (ev0 : List Event) : Except Err Val × St Val × List Event :=
  let expr := exprForSignal signal
  let G := get_connection env st shot tree
  match G.1 with
  | .error e => (.error e, G.2.1, ev0 ++ G.2.2)
  | .ok c =>
      let ev2 := ev0 ++ G.2.2 ++ [.remoteEval c.id expr]
      if env.evalFails c.svr expr then (.error (.evalError c.svr expr), G.2.1, ev2)
      else
        let v := env.evalData c.svr tree shot expr
        if env.isSigPair v = false then (.error .assertError, G.2.1, ev2)
        else
          if useCache then
            let S := saveToCache env G.2.1 tree shot expr v
            match S.1 with
            | .error e => (.error e, S.2.1, ev2 ++ S.2.2)
            | .ok _ => (.ok v, S.2.1, ev2 ++ S.2.2)
          else (.ok v, G.2.1, ev2)

/-- `get_signal(shot, signal, tree, use_cache)`: with `use_cache`, first
try the cache (`try: return _load_from_cache(...) except: pass`), and
fall through to the network on any load failure. -/
def get_signal (env : Env Val) (st : St Val) (shot : Int) (signal tree : String)
    (useCache : Bool) : Except Err Val × St Val × List Event :=
  let expr := exprForSignal signal
  if useCache then
    let L := loadFromCache env st tree shot expr
    match L.1 with
    | .ok v => (.ok v, st, L.2)
    | .error _ => getSignalFetch env st shot signal tree useCache L.2
  else getSignalFetch env st shot signal tree useCache []

/-- The network half of `get_signal_units`: like `getSignalFetch` but
with the `units(...)` expression, no ndarray asserts, and the
`.data().tostring()` conversion folded into the returned value. -/
def getUnitsFetch (env : Env Val) (st : St Val) (shot : Int) (signal tree : String)
    (useCache : Bool) (ev0 : List Event) : Except Err Val × St Val × List Event :=
  let expr := exprForUnits signal
  let G := get_connection env st shot tree
  match G.1 with
  | .error e => (.error e, G.2.1, ev0 ++ G.2.2)
  | .ok c =>
      let ev2 := ev0 ++ G.2.2 ++ [.remoteEval c.id expr]
      if env.evalFails c.svr expr then (.error (.evalError c.svr expr), G.2.1, ev2)
      else
        let v := env.evalData c.svr tree shot expr
        if useCache then
          let S := saveToCache env G.2.1 tree shot expr v
          match S.1 with
          | .error e => (.error e, S.2.1, ev2 ++ S.2.2)
          | .ok _ => (.ok v, S.2.1, ev2 ++ S.2.2)
        else (.ok v, G.2.1, ev2)

/-- `get_signal_units(shot, signal, tree, use_cache)`. -/
def get_signal_units (env : Env Val) (st : St Val) (shot : Int) (signal tree : String)
    (useCache : Bool) : Except Err Val × St Val × List Event :=
  let expr := exprForUnits signal
  if useCache then
    let L := loadFromCache env st tree shot expr
    match L.1 with
    | .ok v => (.ok v, st, L.2)
    | .error _ => getUnitsFetch env st shot signal tree useCache L.2
  else getUnitsFetch env st shot signal tree useCache []

/-- The `except:` arm of `current_shot`: construct a fresh
`mds.Connection('aurora.physics.wisc.edu')`, assign it to the global
`_AURORA`, and evaluate `current_shot("mst")` on it. -/
def current_shot_retry (env : Env Val) (st : St Val) (svr expr : String)
    (ev0 : List Event) : Except Err Int × St Val × List Event :=
  if env.connFails svr then (.error (.connError svr), st, ev0 ++ [.connFail svr])
  else
    let c : Conn := ⟨st.nextId, svr⟩
    let st1 := { st with nextId := st.nextId + 1, aurora := some c }
    let ev1 := ev0 ++ [.mkConn svr c.id, .remoteEval c.id expr]
    if env.evalFails svr expr then (.error (.evalError svr expr), st1, ev1)
    else (.ok env.currentShotVal, st1, ev1)

/-- `current_shot()`: query the module-global `_AURORA` connection; on
any failure (including `_AURORA` not yet existing) reconnect and retry.
Note this global is separate from the `_SVR_CONNS` dictionary. -/
def current_shot (env : Env Val) (st : St Val) :
    Except Err Int × St Val × List Event :=
  let svr := "aurora.physics.wisc.edu"
  let expr := "current_shot(\"mst\")"
  match st.aurora with
  | none => current_shot_retry env st svr expr []
  | some c =>
      if env.evalFails svr expr then
        current_shot_retry env st svr expr [.remoteEval c.id expr]
      else (.ok env.currentShotVal, st, [.remoteEval c.id expr])

/-- A client-visible operation on the connection layer. -/
inductive Op where
  | getConn (shot : Int) (tree : String)

/-- Run a sequence of `get_connection` calls, accumulating the trace. -/
def runOps (env : Env Val) : St Val → List Op → St Val × List Event
  | st, [] => (st, [])
  | st, Op.getConn s t :: rest =>
      let r := get_connection env st s t
      let r' := runOps env r.2.1 rest
      (r'.1, r.2.2 ++ r'.2)

/-- Is this event the construction of a connection to `svr`? -/
def isMkConnFor (svr : String) : Event → Bool
  | .mkConn s _ => s == svr
  | _ => false

/-- How many connection objects to `svr` a trace constructs. -/
def countMk (svr : String) (ev : List Event) : Nat :=
  (ev.filter (isMkConnFor svr)).length

/-- A fully successful external world over trivial data, with the date
fixed to 2014-01-01; used to evaluate the library on concrete inputs. -/
def env0 : Env Unit :=
  { today := ⟨2014, 1, 1⟩
    homeDir := "/home/mst"
    md5hex := fun s => s
    evalData := fun _ _ _ _ => ()
    isSigPair := fun _ => true
    currentShotVal := 1140101050
    connFails := fun _ => false
    openFails := fun _ _ _ => false
    evalFails := fun _ _ => false
    mkdirFails := fun _ => false
    writeFails := fun _ => false }

/-- Like `env0` but every cache-file write fails (e.g. disk full). -/
def envWriteFail : Env Unit :=
  { env0 with writeFails := fun _ => true }

/-!
## Theorems
-/

theorem daysInMonth_le_31 (y m : Int) : daysInMonth y m ≤ 31 := by
  unfold daysInMonth
  split
  · split <;> omega
  · split <;> omega

theorem lookupA_putA_self {α : Type} (l : List (String × α)) (k : String) (v : α) :
    lookupA (putA l k v) k = some v := by
  simp [putA, lookupA]

theorem lookupA_filter_ne {α : Type} (l : List (String × α)) (k k' : String)
    (h : k' ≠ k) :
    lookupA (l.filter (fun p => !(p.1 == k))) k' = lookupA l k' := by
  induction l with
  | nil => rfl
  | cons a t ih =>
      obtain ⟨ak, av⟩ := a
      by_cases hk : ak = k
      · subst hk
        simp only [List.filter, beq_self_eq_true, Bool.not_true, lookupA,
          if_neg (Ne.symm h)]
        exact ih
      · have : (ak == k) = false := beq_eq_false_iff_ne.mpr hk
        by_cases hk' : ak = k'
        · subst hk'
          simp [List.filter, this, lookupA]
        · simp only [List.filter, this, Bool.not_false, lookupA, if_neg hk']
          exact ih

theorem lookupA_putA_ne {α : Type} (l : List (String × α)) (k k' : String) (v : α)
    (h : k' ≠ k) : lookupA (putA l k v) k' = lookupA l k' := by
  simp only [putA, lookupA, if_neg (Ne.symm h)]
  exact lookupA_filter_ne l k k' h

theorem gsc_update_self (st : St Val) (svr : String) (c : Conn) (t : String) (s : Int) :
    get_svr_cached (update_svr_cache st svr c t s) svr = (some c, some t, some s) := by
  simp [get_svr_cached, update_svr_cache, lookupA_putA_self]

theorem gsc_update_ne (st : St Val) (svr svr' : String) (c : Conn) (t : String)
    (s : Int) (h : svr' ≠ svr) :
    get_svr_cached (update_svr_cache st svr c t s) svr' = get_svr_cached st svr' := by
  simp [get_svr_cached, update_svr_cache, lookupA_putA_ne _ _ _ _ h]

theorem gsc_shape (st : St Val) (svr : String) :
    (∃ c t s, get_svr_cached st svr = (some c, some t, some s)) ∨
    get_svr_cached st svr = (none, none, none) := by
  unfold get_svr_cached
  rcases hc : lookupA st.svrConns svr with _ | c
  · right; rfl
  · rcases ht : lookupA st.svrTrees svr with _ | t
    · right; rfl
    · rcases hs : lookupA st.svrShots svr with _ | s
      · right; rfl
      · left; exact ⟨c, t, s, rfl⟩

theorem gc_cached_some (env : Env Val) (st : St Val) (shot : Int) (tree : String)
    (c : Conn) (t0 : String) (s0 : Int)
    (h : get_svr_cached st (get_server_for_shot env shot) = (some c, some t0, some s0)) :
    get_connection env st shot tree =
      switchAndStore env st c (get_server_for_shot env shot) tree shot
        (some t0) (some s0) [] := by
  unfold get_connection
  rw [h]

theorem gc_cached_none (env : Env Val) (st : St Val) (shot : Int) (tree : String)
    (h : get_svr_cached st (get_server_for_shot env shot) = (none, none, none)) :
    get_connection env st shot tree =
      (if env.connFails (get_server_for_shot env shot) then
        (.error (.connError (get_server_for_shot env shot)), st,
          [.connFail (get_server_for_shot env shot)])
      else
        switchAndStore env { st with nextId := st.nextId + 1 }
          ⟨st.nextId, get_server_for_shot env shot⟩ (get_server_for_shot env shot)
          tree shot none none [.mkConn (get_server_for_shot env shot) st.nextId]) := by
  unfold get_connection
  rw [h]

theorem sw_same (env : Env Val) (st : St Val) (c : Conn) (svr tree : String)
    (shot : Int) (ev0 : List Event) :
    switchAndStore env st c svr tree shot (some tree) (some shot) ev0 =
      (.ok c, update_svr_cache st svr c tree shot, ev0) := by
  simp [switchAndStore]

theorem sw_diff_ok (env : Env Val) (st : St Val) (c : Conn) (svr tree : String)
    (shot : Int) (t0 : Option String) (s0 : Option Int) (ev0 : List Event)
    (h : ¬(t0 = some tree ∧ s0 = some shot))
    (hf : env.openFails svr tree shot = false) :
    switchAndStore env st c svr tree shot t0 s0 ev0 =
      (.ok c, update_svr_cache st svr c tree shot,
        ev0 ++ [.closeAllTrees c.id, .openTree c.id tree shot]) := by
  simp [switchAndStore, h, hf]

theorem sw_diff_fail (env : Env Val) (st : St Val) (c : Conn) (svr tree : String)
    (shot : Int) (t0 : Option String) (s0 : Option Int) (ev0 : List Event)
    (h : ¬(t0 = some tree ∧ s0 = some shot))
    (hf : env.openFails svr tree shot = true) :
    switchAndStore env st c svr tree shot t0 s0 ev0 =
      (.error (.openError svr tree shot), st,
        ev0 ++ [.closeAllTrees c.id, .openTree c.id tree shot]) := by
  simp [switchAndStore, h, hf]

/-- After a successful `get_connection`, the server's table entry records
exactly the returned connection and the requested `(tree, shot)` pair. -/
theorem gc_ok_cached (env : Env Val) (st : St Val) (shot : Int) (tree : String)
    (c : Conn) (h : (get_connection env st shot tree).1 = .ok c) :
    get_svr_cached ((get_connection env st shot tree).2.1)
      (get_server_for_shot env shot) = (some c, some tree, some shot) := by
  rcases gsc_shape st (get_server_for_shot env shot) with ⟨c0, t0, s0, hc⟩ | hc
  · rw [gc_cached_some env st shot tree c0 t0 s0 hc] at h ⊢
    by_cases hpair : ((some t0 : Option String) = some tree ∧ (some s0 : Option Int) = some shot)
    · obtain ⟨hpt, hps⟩ := hpair
      injection hpt with hpt; injection hps with hps
      subst hpt; subst hps
      rw [sw_same] at h ⊢
      have h2 : (Except.ok c0 : Except Err Conn) = .ok c := h
      injection h2 with h2
      subst h2
      exact gsc_update_self _ _ _ _ _
    · rcases hof : env.openFails (get_server_for_shot env shot) tree shot
      · rw [sw_diff_ok env st c0 _ tree shot _ _ _ hpair hof] at h ⊢
        have h2 : (Except.ok c0 : Except Err Conn) = .ok c := h
        injection h2 with h2
        subst h2
        exact gsc_update_self _ _ _ _ _
      · rw [sw_diff_fail env st c0 _ tree shot _ _ _ hpair hof] at h
        simp at h
  · rw [gc_cached_none env st shot tree hc] at h ⊢
    rcases hcf : env.connFails (get_server_for_shot env shot)
    · rw [if_neg (by simp [hcf])] at h ⊢
      have hpair : ¬((none : Option String) = some tree ∧ (none : Option Int) = some shot) := by
        simp
      rcases hof : env.openFails (get_server_for_shot env shot) tree shot
      · rw [sw_diff_ok env _ _ _ tree shot _ _ _ hpair hof] at h ⊢
        simp only at h
        injection h with h
        subst h
        exact gsc_update_self _ _ _ tree shot
      · rw [sw_diff_fail env _ _ _ tree shot _ _ _ hpair hof] at h
        simp at h
    · rw [if_pos (by simp [hcf])] at h
      simp at h

theorem load_ok_iff (env : Env Val) (st : St Val) (tree : String) (shot : Int)
    (expr : String) (v : Val) :
    (loadFromCache env st tree shot expr).1 = .ok v ↔
      lookupA st.files (cacheFile env tree shot expr) = some (some v) := by
  simp only [loadFromCache]
  rcases h : lookupA st.files (cacheFile env tree shot expr) with _ | w
  · simp [h]
  · rcases w with _ | v' <;> simp [h]

theorem load_of_lookup (env : Env Val) (st : St Val) (tree : String) (shot : Int)
    (expr : String) (v : Val)
    (h : lookupA st.files (cacheFile env tree shot expr) = some (some v)) :
    loadFromCache env st tree shot expr =
      (.ok v, [.cacheRead (cacheFile env tree shot expr)]) := by
  simp [loadFromCache, h]

theorem load_ev (env : Env Val) (st : St Val) (tree : String) (shot : Int)
    (expr : String) :
    (loadFromCache env st tree shot expr).2 =
      [.cacheRead (cacheFile env tree shot expr)] := by
  simp only [loadFromCache]
  rcases h : lookupA st.files (cacheFile env tree shot expr) with _ | w
  · simp [h]
  · rcases w with _ | v' <;> simp [h]

theorem write_ok_lookup (env : Env Val) (st : St Val) (path : String) (v : Val) (u : Unit)
    (h : (writeCacheFile env st path v).1 = .ok u) :
    lookupA ((writeCacheFile env st path v).2.1).files path = some (some v) := by
  simp only [writeCacheFile] at h ⊢
  by_cases hw : env.writeFails path = true
  · rw [if_pos hw] at h
    exact absurd h (by simp)
  · rw [if_neg hw] at h ⊢
    exact lookupA_putA_self _ _ _

theorem save_ok_lookup (env : Env Val) (st : St Val) (tree : String) (shot : Int)
    (expr : String) (v : Val) (u : Unit)
    (h : (saveToCache env st tree shot expr v).1 = .ok u) :
    lookupA ((saveToCache env st tree shot expr v).2.1).files
      (cacheFile env tree shot expr) = some (some v) := by
  simp only [saveToCache] at h ⊢
  by_cases hd : st.dirs.contains (cacheDir env tree shot) = true
  · rw [if_pos hd] at h ⊢
    exact write_ok_lookup env st _ v u h
  · rw [if_neg hd] at h ⊢
    by_cases hm : env.mkdirFails (cacheDir env tree shot) = true
    · rw [if_pos hm] at h
      exact absurd h (by simp)
    · rw [if_neg hm] at h ⊢
      exact write_ok_lookup env _ _ v u h

/-- A successful cached fetch ends with the fetched value stored at the
deterministic cache path. -/
theorem fetch_ok_lookup (env : Env Val) (st : St Val) (shot : Int) (signal tree : String)
    (ev0 : List Event) (v : Val)
    (h : (getSignalFetch env st shot signal tree true ev0).1 = .ok v) :
    lookupA ((getSignalFetch env st shot signal tree true ev0).2.1).files
      (cacheFile env tree shot (exprForSignal signal)) = some (some v) := by
  simp only [getSignalFetch] at h ⊢
  rcases hG : (get_connection env st shot tree).1 with e | c
  · simp [hG] at h
  · simp only [hG] at h ⊢
    rcases hev : env.evalFails c.svr (exprForSignal signal)
    · simp only [hev, Bool.false_eq_true, if_false] at h ⊢
      rcases hsp : env.isSigPair (env.evalData c.svr tree shot (exprForSignal signal))
      · simp [hsp] at h
      · simp only [hsp, if_true, if_false] at h ⊢
        rcases hS : (saveToCache env ((get_connection env st shot tree).2.1) tree shot
            (exprForSignal signal) (env.evalData c.svr tree shot (exprForSignal signal))).1
          with e | u
        · simp [hS] at h
        · simp only [hS] at h ⊢
          have h2 : (Except.ok (env.evalData c.svr tree shot (exprForSignal signal)) :
              Except Err Val) = .ok v := h
          injection h2 with h2
          rw [h2] at hS ⊢
          exact save_ok_lookup _ _ _ _ _ _ _ hS
    · simp [hev] at h

/-- A cached `get_signal` whose cache file holds `v` returns `v` at once:
its whole trace is the one cache-file read and the state is untouched. -/
theorem get_signal_hit (env : Env Val) (st : St Val) (shot : Int) (signal tree : String)
    (v : Val)
    (h : lookupA st.files (cacheFile env tree shot (exprForSignal signal)) = some (some v)) :
    get_signal env st shot signal tree true =
      (.ok v, st, [.cacheRead (cacheFile env tree shot (exprForSignal signal))]) := by
  have hload := load_of_lookup env st tree shot (exprForSignal signal) v h
  simp only [get_signal, hload, if_true]

/-- C2: if `get_signal(shot, signal, tree, use_cache=True)` succeeds,
an immediately repeated identical call returns the same value, leaves
the state untouched, and its entire trace is one local cache-file read:
it performs no network operation (no connection construction, no tree
open, no remote evaluate) and no cache write, being served from the
file the first call persisted at the deterministic cache path. -/
theorem c2_cache_round_trip (env : Env Val) (st : St Val) (shot : Int)
    (signal tree : String) (v : Val)
    (h : (get_signal env st shot signal tree true).1 = .ok v) :
    get_signal env ((get_signal env st shot signal tree true).2.1) shot signal tree true =
      (.ok v, (get_signal env st shot signal tree true).2.1,
        [.cacheRead (cacheFile env tree shot (exprForSignal signal))]) ∧
    ∀ e ∈ (get_signal env ((get_signal env st shot signal tree true).2.1)
        shot signal tree true).2.2, e.isNetwork = false := by
  have hlk : lookupA ((get_signal env st shot signal tree true).2.1).files
      (cacheFile env tree shot (exprForSignal signal)) = some (some v) := by
    simp only [get_signal, if_true] at h ⊢
    rcases hL : (loadFromCache env st tree shot (exprForSignal signal)).1 with e | w
    · simp only [hL] at h ⊢
      exact fetch_ok_lookup env st shot signal tree _ v h
    · simp only [hL] at h ⊢
      have h2 : (Except.ok w : Except Err Val) = .ok v := h
      injection h2 with h2
      subst h2
      exact (load_ok_iff env st tree shot (exprForSignal signal) w).mp hL
  have hsecond := get_signal_hit env ((get_signal env st shot signal tree true).2.1)
    shot signal tree v hlk
  refine ⟨hsecond, ?_⟩
  rw [hsecond]
  intro e he
  simp only [List.mem_singleton] at he
  subst he
  rfl

/-- C2 witness: concrete cached round trip for signal `ip` of shot
1140101005 starting from an empty cache. -/
theorem c2_witness :
    get_signal env0 ((get_signal env0 initSt 1140101005 "ip" "mst" true).2.1)
        1140101005 "ip" "mst" true =
      (.ok (), (get_signal env0 initSt 1140101005 "ip" "mst" true).2.1,
        [.cacheRead (cacheFile env0 "mst" 1140101005 (exprForSignal "ip"))]) ∧
    ∀ e ∈ (get_signal env0 ((get_signal env0 initSt 1140101005 "ip" "mst" true).2.1)
        1140101005 "ip" "mst" true).2.2, e.isNetwork = false :=
  c2_cache_round_trip env0 initSt 1140101005 "ip" "mst" () (by rfl)

/-- C6: any failure loading the cache file (absent, corrupt, unreadable)
makes `get_signal` / `get_signal_units` with `use_cache=True` proceed
exactly as the network-fetch path, the load error never surfacing to
the caller. -/
theorem c6_cache_read_failure_is_miss (env : Env Val) (st : St Val) (shot : Int)
    (signal tree : String) (e1 e2 : Err)
    (h1 : (loadFromCache env st tree shot (exprForSignal signal)).1 = .error e1)
    (h2 : (loadFromCache env st tree shot (exprForUnits signal)).1 = .error e2) :
    get_signal env st shot signal tree true =
      getSignalFetch env st shot signal tree true
        [.cacheRead (cacheFile env tree shot (exprForSignal signal))] ∧
    get_signal_units env st shot signal tree true =
      getUnitsFetch env st shot signal tree true
        [.cacheRead (cacheFile env tree shot (exprForUnits signal))] := by
  constructor
  · simp only [get_signal, if_true, h1]
    rw [load_ev]
  · simp only [get_signal_units, if_true, h2]
    rw [load_ev]

/-- C6 witness: from the initial (empty) cache both loads fail with a
missing-file error, and both calls reduce to the network fetch. -/
theorem c6_witness :
    get_signal env0 initSt 1140101005 "ip" "mst" true =
      getSignalFetch env0 initSt 1140101005 "ip" "mst" true
        [.cacheRead (cacheFile env0 "mst" 1140101005 (exprForSignal "ip"))] ∧
    get_signal_units env0 initSt 1140101005 "ip" "mst" true =
      getUnitsFetch env0 initSt 1140101005 "ip" "mst" true
        [.cacheRead (cacheFile env0 "mst" 1140101005 (exprForUnits "ip"))] :=
  c6_cache_read_failure_is_miss env0 initSt 1140101005 "ip" "mst"
    (.ioError (cacheFile env0 "mst" 1140101005 (exprForSignal "ip")))
    (.ioError (cacheFile env0 "mst" 1140101005 (exprForUnits "ip")))
    (by rfl) (by rfl)

/-- C8: when caching is on and the network fetch succeeded (connection
obtained, remote evaluation and ndarray asserts passed), a failure in
`_save_to_cache` propagates to the caller unchanged — `get_signal`
raises that very error and does not return the fetched result. -/
theorem c8_cache_write_failure_propagates (env : Env Val) (st : St Val) (shot : Int)
    (signal tree : String) (e0 e : Err) (c : Conn)
    (hL : (loadFromCache env st tree shot (exprForSignal signal)).1 = .error e0)
    (hG : (get_connection env st shot tree).1 = .ok c)
    (hev : env.evalFails c.svr (exprForSignal signal) = false)
    (hsp : env.isSigPair (env.evalData c.svr tree shot (exprForSignal signal)) = true)
    (hS : (saveToCache env ((get_connection env st shot tree).2.1) tree shot
        (exprForSignal signal) (env.evalData c.svr tree shot (exprForSignal signal))).1
      = .error e) :
    (get_signal env st shot signal tree true).1 = .error e ∧
    ∀ w : Val, (get_signal env st shot signal tree true).1 ≠ .ok w := by
  have hmain : (get_signal env st shot signal tree true).1 = .error e := by
    simp [get_signal, hL, getSignalFetch, hG, hev, hsp, hS]
  refine ⟨hmain, fun w hw => ?_⟩
  rw [hmain] at hw
  exact Except.noConfusion hw

/-- C8 witness: with every cache-file write failing (e.g. full disk) and
an empty starting cache, `get_signal` for `ip` of shot 1140101005
propagates the pickling error instead of returning the fetched value. -/
theorem c8_witness :
    (get_signal envWriteFail initSt 1140101005 "ip" "mst" true).1 =
      .error (.pickleError (cacheFile envWriteFail "mst" 1140101005 (exprForSignal "ip"))) ∧
    ∀ w : Unit, (get_signal envWriteFail initSt 1140101005 "ip" "mst" true).1 ≠ .ok w :=
  c8_cache_write_failure_propagates envWriteFail initSt 1140101005 "ip" "mst"
    (.ioError (cacheFile envWriteFail "mst" 1140101005 (exprForSignal "ip")))
    (.pickleError (cacheFile envWriteFail "mst" 1140101005 (exprForSignal "ip")))
    ⟨0, "aurora.physics.wisc.edu"⟩
    (by rfl) (by rfl) (by rfl) (by rfl) (by rfl)

/-- C3: after a successful `get_connection(shot, tree)`, an immediately
repeated call with the same `(tree, shot)` finds the recorded pair equal
to the request and performs no external operation at all — in
particular neither `closeAllTrees` nor `openTree` (and no connection
construction): its event trace is empty, and it returns the same
connection object. -/
theorem c3_repeat_get_connection_no_reopen (env : Env Val) (st : St Val) (shot : Int)
    (tree : String) (c : Conn)
    (h : (get_connection env st shot tree).1 = .ok c) :
    (get_connection env ((get_connection env st shot tree).2.1) shot tree).1 = .ok c ∧
    (get_connection env ((get_connection env st shot tree).2.1) shot tree).2.2 = [] := by
  have hc := gc_ok_cached env st shot tree c h
  rw [gc_cached_some env _ shot tree c tree shot hc, sw_same]
  exact ⟨rfl, rfl⟩

/-- C3 witness: concrete run — connect to shot 1140101005 on tree `mst`
from the initial state, then repeat; the repeat returns the same
connection ⟨0, aurora⟩ with an empty trace. -/
theorem c3_witness :
    (get_connection env0 ((get_connection env0 initSt 1140101005 "mst").2.1)
      1140101005 "mst").1 = .ok ⟨0, "aurora.physics.wisc.edu"⟩ ∧
    (get_connection env0 ((get_connection env0 initSt 1140101005 "mst").2.1)
      1140101005 "mst").2.2 = [] :=
  c3_repeat_get_connection_no_reopen env0 initSt 1140101005 "mst"
    ⟨0, "aurora.physics.wisc.edu"⟩ (by rfl)

/-- C4: when the server's recorded `(tree, shot)` pair differs from the
request, `get_connection` always performs close-then-open — a
`closeAllTrees` (whose failure the code swallows) followed by an
`openTree` of the requested pair; if the open succeeds the table records
the new pair, and if it fails the error propagates and the table is
unchanged. -/
theorem c4_switch_close_then_open (env : Env Val) (st : St Val) (shot : Int)
    (tree : String) (c : Conn) (t0 : String) (s0 : Int)
    (hc : get_svr_cached st (get_server_for_shot env shot) = (some c, some t0, some s0))
    (hne : ¬(t0 = tree ∧ s0 = shot)) :
    (get_connection env st shot tree).2.2 =
      [.closeAllTrees c.id, .openTree c.id tree shot] ∧
    (env.openFails (get_server_for_shot env shot) tree shot = false →
      (get_connection env st shot tree).1 = .ok c ∧
      get_svr_cached ((get_connection env st shot tree).2.1)
        (get_server_for_shot env shot) = (some c, some tree, some shot)) ∧
    (env.openFails (get_server_for_shot env shot) tree shot = true →
      (get_connection env st shot tree).1 =
        .error (.openError (get_server_for_shot env shot) tree shot) ∧
      (get_connection env st shot tree).2.1 = st) := by
  have hpair : ¬((some t0 : Option String) = some tree ∧ (some s0 : Option Int) = some shot) := by
    simpa using hne
  rw [gc_cached_some env st shot tree c t0 s0 hc]
  rcases hof : env.openFails (get_server_for_shot env shot) tree shot
  · rw [sw_diff_ok env st c _ tree shot _ _ _ hpair hof]
    exact ⟨rfl, fun _ => ⟨rfl, gsc_update_self _ _ _ _ _⟩,
      fun hcontra => by simp [hof] at hcontra⟩
  · rw [sw_diff_fail env st c _ tree shot _ _ _ hpair hof]
    exact ⟨rfl, fun hcontra => by simp [hof] at hcontra, fun _ => ⟨rfl, rfl⟩⟩

/-- C4 witness: concrete run — after opening `(mst, 1140101005)`, a
request for tree `mst2` on the same connection closes and reopens, and
succeeds. -/
theorem c4_witness :
    (get_connection env0 ((get_connection env0 initSt 1140101005 "mst").2.1)
        1140101005 "mst2").2.2 =
      [.closeAllTrees 0, .openTree 0 "mst2" 1140101005] ∧
    (get_connection env0 ((get_connection env0 initSt 1140101005 "mst").2.1)
        1140101005 "mst2").1 = .ok ⟨0, "aurora.physics.wisc.edu"⟩ :=
  have h := c4_switch_close_then_open env0
    ((get_connection env0 initSt 1140101005 "mst").2.1) 1140101005 "mst2"
    ⟨0, "aurora.physics.wisc.edu"⟩ "mst" 1140101005 (by rfl) (by decide)
  ⟨h.1, (h.2.1 rfl).1⟩

theorem isCacheOp_eq_not_isNetwork (e : Event) : e.isCacheOp = !e.isNetwork := by
  cases e <;> rfl

theorem sw_frame (env : Env Val) (st : St Val) (c : Conn) (svr tree : String)
    (shot : Int) (t0 : Option String) (s0 : Option Int) (ev0 : List Event) :
    ((switchAndStore env st c svr tree shot t0 s0 ev0).2.1).files = st.files ∧
    ((switchAndStore env st c svr tree shot t0 s0 ev0).2.1).dirs = st.dirs := by
  simp only [switchAndStore]
  split
  · exact ⟨rfl, rfl⟩
  · split
    · exact ⟨rfl, rfl⟩
    · exact ⟨rfl, rfl⟩

theorem sw_events (env : Env Val) (st : St Val) (c : Conn) (svr tree : String)
    (shot : Int) (t0 : Option String) (s0 : Option Int) (ev0 : List Event) :
    (switchAndStore env st c svr tree shot t0 s0 ev0).2.2 = ev0 ∨
    (switchAndStore env st c svr tree shot t0 s0 ev0).2.2 =
      ev0 ++ [.closeAllTrees c.id, .openTree c.id tree shot] := by
  simp only [switchAndStore]
  split
  · exact Or.inl rfl
  · split
    · exact Or.inr rfl
    · exact Or.inr rfl

theorem sw_error_events (env : Env Val) (st : St Val) (c : Conn) (svr tree : String)
    (shot : Int) (t0 : Option String) (s0 : Option Int) (ev0 : List Event) (e : Err)
    (h : (switchAndStore env st c svr tree shot t0 s0 ev0).1 = .error e) :
    (switchAndStore env st c svr tree shot t0 s0 ev0).2.2 =
      ev0 ++ [.closeAllTrees c.id, .openTree c.id tree shot] := by
  simp only [switchAndStore] at h ⊢
  by_cases hp : (t0 = some tree ∧ s0 = some shot)
  · rw [if_pos hp] at h
    exact Except.noConfusion h
  · rw [if_neg hp] at h ⊢
    by_cases ho : env.openFails svr tree shot = true
    · rw [if_pos ho]
    · rw [if_neg ho] at h
      exact Except.noConfusion h

theorem gc_frame (env : Env Val) (st : St Val) (shot : Int) (tree : String) :
    ((get_connection env st shot tree).2.1).files = st.files ∧
    ((get_connection env st shot tree).2.1).dirs = st.dirs := by
  rcases gsc_shape st (get_server_for_shot env shot) with ⟨c0, t0, s0, hc⟩ | hc
  · rw [gc_cached_some env st shot tree c0 t0 s0 hc]
    exact sw_frame env st c0 _ tree shot _ _ _
  · rw [gc_cached_none env st shot tree hc]
    by_cases hcf : env.connFails (get_server_for_shot env shot) = true
    · rw [if_pos hcf]
      exact ⟨rfl, rfl⟩
    · rw [if_neg hcf]
      exact sw_frame env _ _ _ tree shot _ _ _

theorem gc_events_network (env : Env Val) (st : St Val) (shot : Int) (tree : String) :
    ∀ e ∈ (get_connection env st shot tree).2.2, e.isNetwork = true := by
  rcases gsc_shape st (get_server_for_shot env shot) with ⟨c0, t0, s0, hc⟩ | hc
  · rw [gc_cached_some env st shot tree c0 t0 s0 hc]
    rcases sw_events env st c0 _ tree shot (some t0) (some s0) [] with h | h <;> rw [h]
    · intro e he
      simp at he
    · intro e he
      simp only [List.nil_append, List.mem_cons, List.mem_singleton] at he
      rcases he with he | he | he
      · subst he; rfl
      · subst he; rfl
      · simp at he
  · rw [gc_cached_none env st shot tree hc]
    by_cases hcf : env.connFails (get_server_for_shot env shot) = true
    · rw [if_pos hcf]
      intro e he
      simp only [List.mem_singleton] at he
      subst he; rfl
    · rw [if_neg hcf]
      rcases sw_events env { st with nextId := st.nextId + 1 }
          ⟨st.nextId, get_server_for_shot env shot⟩ (get_server_for_shot env shot) tree shot
          none none [.mkConn (get_server_for_shot env shot) st.nextId] with h | h <;> rw [h]
      · intro e he
        simp only [List.mem_singleton] at he
        subst he; rfl
      · intro e he
        simp only [List.cons_append, List.nil_append, List.mem_cons,
          List.mem_singleton] at he
        rcases he with he | he | he | he
        · subst he; rfl
        · subst he; rfl
        · subst he; rfl
        · simp at he

theorem gc_error_events_ne (env : Env Val) (st : St Val) (shot : Int) (tree : String)
    (e : Err) (h : (get_connection env st shot tree).1 = .error e) :
    (get_connection env st shot tree).2.2 ≠ [] := by
  rcases gsc_shape st (get_server_for_shot env shot) with ⟨c0, t0, s0, hc⟩ | hc
  · rw [gc_cached_some env st shot tree c0 t0 s0 hc] at h ⊢
    rw [sw_error_events env st c0 _ tree shot _ _ _ e h]
    simp
  · rw [gc_cached_none env st shot tree hc] at h ⊢
    by_cases hcf : env.connFails (get_server_for_shot env shot) = true
    · rw [if_pos hcf]
      simp
    · rw [if_neg hcf] at h ⊢
      rw [sw_error_events env _ _ _ tree shot _ _ _ e h]
      simp

/-- The network half of `get_signal` with caching off: all events are
network events, one of them is the remote evaluation whenever the
connection step succeeded, the trace is never empty, and the cache
state (directories and files) is untouched. -/
theorem fetch_nocache_spec (env : Env Val) (st : St Val) (shot : Int)
    (signal tree : String) :
    (∀ e ∈ (getSignalFetch env st shot signal tree false []).2.2, e.isNetwork = true) ∧
    ((getSignalFetch env st shot signal tree false []).2.1).files = st.files ∧
    ((getSignalFetch env st shot signal tree false []).2.1).dirs = st.dirs ∧
    (∃ e ∈ (getSignalFetch env st shot signal tree false []).2.2, e.isNetwork = true) ∧
    (∀ v, (getSignalFetch env st shot signal tree false []).1 = .ok v →
      ∃ n, Event.remoteEval n (exprForSignal signal) ∈
        (getSignalFetch env st shot signal tree false []).2.2) := by
  simp only [getSignalFetch]
  rcases hG : (get_connection env st shot tree).1 with er | c
  · simp only [hG, List.nil_append]
    refine ⟨gc_events_network env st shot tree, (gc_frame env st shot tree).1,
      (gc_frame env st shot tree).2, ?_, ?_⟩
    · rcases hne : (get_connection env st shot tree).2.2 with _ | ⟨a, rest⟩
      · exact absurd hne (gc_error_events_ne env st shot tree er hG)
      · exact ⟨a, by simp, gc_events_network env st shot tree a (by rw [hne]; simp)⟩
    · intro v hv
      exact Except.noConfusion hv
  · simp only [hG, List.nil_append]
    have hmem : Event.remoteEval c.id (exprForSignal signal) ∈
        (get_connection env st shot tree).2.2 ++
          [Event.remoteEval c.id (exprForSignal signal)] :=
      List.mem_append_right _ (by simp)
    have hall : ∀ e ∈ (get_connection env st shot tree).2.2 ++
        [Event.remoteEval c.id (exprForSignal signal)], e.isNetwork = true := by
      intro e he
      rcases List.mem_append.mp he with he | he
      · exact gc_events_network env st shot tree e he
      · simp only [List.mem_singleton] at he
        subst he; rfl
    rcases hev : env.evalFails c.svr (exprForSignal signal)
    · simp only [hev, Bool.false_eq_true, if_false]
      rcases hsp : env.isSigPair (env.evalData c.svr tree shot (exprForSignal signal))
      · simp only [hsp, if_true]
        refine ⟨hall, (gc_frame env st shot tree).1, (gc_frame env st shot tree).2,
          ⟨_, hmem, rfl⟩, fun v hv => ?_⟩
        exact Except.noConfusion hv
      · simp only [hsp, Bool.true_eq_false, if_false]
        exact ⟨hall, (gc_frame env st shot tree).1, (gc_frame env st shot tree).2,
          ⟨_, hmem, rfl⟩, fun v hv => ⟨c.id, hmem⟩⟩
    · simp only [hev, if_true]
      exact ⟨hall, (gc_frame env st shot tree).1, (gc_frame env st shot tree).2,
        ⟨_, hmem, rfl⟩, fun v hv => Except.noConfusion hv⟩

/-- The network half of `get_signal_units` with caching off: same frame
and network-contact properties as `fetch_nocache_spec`. -/
theorem units_nocache_spec (env : Env Val) (st : St Val) (shot : Int)
    (signal tree : String) :
    (∀ e ∈ (getUnitsFetch env st shot signal tree false []).2.2, e.isNetwork = true) ∧
    ((getUnitsFetch env st shot signal tree false []).2.1).files = st.files ∧
    ((getUnitsFetch env st shot signal tree false []).2.1).dirs = st.dirs ∧
    (∃ e ∈ (getUnitsFetch env st shot signal tree false []).2.2, e.isNetwork = true) ∧
    (∀ v, (getUnitsFetch env st shot signal tree false []).1 = .ok v →
      ∃ n, Event.remoteEval n (exprForUnits signal) ∈
        (getUnitsFetch env st shot signal tree false []).2.2) := by
  simp only [getUnitsFetch]
  rcases hG : (get_connection env st shot tree).1 with er | c
  · simp only [hG, List.nil_append]
    refine ⟨gc_events_network env st shot tree, (gc_frame env st shot tree).1,
      (gc_frame env st shot tree).2, ?_, ?_⟩
    · rcases hne : (get_connection env st shot tree).2.2 with _ | ⟨a, rest⟩
      · exact absurd hne (gc_error_events_ne env st shot tree er hG)
      · exact ⟨a, by simp, gc_events_network env st shot tree a (by rw [hne]; simp)⟩
    · intro v hv
      exact Except.noConfusion hv
  · simp only [hG, List.nil_append]
    have hmem : Event.remoteEval c.id (exprForUnits signal) ∈
        (get_connection env st shot tree).2.2 ++
          [Event.remoteEval c.id (exprForUnits signal)] :=
      List.mem_append_right _ (by simp)
    have hall : ∀ e ∈ (get_connection env st shot tree).2.2 ++
        [Event.remoteEval c.id (exprForUnits signal)], e.isNetwork = true := by
      intro e he
      rcases List.mem_append.mp he with he | he
      · exact gc_events_network env st shot tree e he
      · simp only [List.mem_singleton] at he
        subst he; rfl
    rcases hev : env.evalFails c.svr (exprForUnits signal)
    · simp only [hev, Bool.false_eq_true, if_false]
      exact ⟨hall, (gc_frame env st shot tree).1, (gc_frame env st shot tree).2,
        ⟨_, hmem, rfl⟩, fun v hv => ⟨c.id, hmem⟩⟩
    · simp only [hev, if_true]
      exact ⟨hall, (gc_frame env st shot tree).1, (gc_frame env st shot tree).2,
        ⟨_, hmem, rfl⟩, fun v hv => Except.noConfusion hv⟩

/-- C7: with `use_cache=False`, neither `get_signal` nor
`get_signal_units` touches the cache — no cache file is read, written
or created and the cache state is unchanged — and the network is always
contacted: the trace always contains a network event, and whenever the
call succeeds it contains the remote evaluation of the expression. -/
theorem c7_no_cache_when_disabled (env : Env Val) (st : St Val) (shot : Int)
    (signal tree : String) :
    (∀ e ∈ (get_signal env st shot signal tree false).2.2, e.isCacheOp = false) ∧
    ((get_signal env st shot signal tree false).2.1).files = st.files ∧
    ((get_signal env st shot signal tree false).2.1).dirs = st.dirs ∧
    (∃ e ∈ (get_signal env st shot signal tree false).2.2, e.isNetwork = true) ∧
    (∀ v, (get_signal env st shot signal tree false).1 = .ok v →
      ∃ n, Event.remoteEval n (exprForSignal signal) ∈
        (get_signal env st shot signal tree false).2.2) ∧
    (∀ e ∈ (get_signal_units env st shot signal tree false).2.2, e.isCacheOp = false) ∧
    ((get_signal_units env st shot signal tree false).2.1).files = st.files ∧
    ((get_signal_units env st shot signal tree false).2.1).dirs = st.dirs ∧
    (∃ e ∈ (get_signal_units env st shot signal tree false).2.2, e.isNetwork = true) ∧
    (∀ v, (get_signal_units env st shot signal tree false).1 = .ok v →
      ∃ n, Event.remoteEval n (exprForUnits signal) ∈
        (get_signal_units env st shot signal tree false).2.2) := by
  have hs : get_signal env st shot signal tree false =
      getSignalFetch env st shot signal tree false [] := rfl
  have hu : get_signal_units env st shot signal tree false =
      getUnitsFetch env st shot signal tree false [] := rfl
  rw [hs, hu]
  obtain ⟨a1, a2, a3, a4, a5⟩ := fetch_nocache_spec env st shot signal tree
  obtain ⟨b1, b2, b3, b4, b5⟩ := units_nocache_spec env st shot signal tree
  refine ⟨?_, a2, a3, a4, a5, ?_, b2, b3, b4, b5⟩
  · intro e he
    rw [isCacheOp_eq_not_isNetwork, a1 e he]
    rfl
  · intro e he
    rw [isCacheOp_eq_not_isNetwork, b1 e he]
    rfl

/-- C7 witness: the conclusion evaluated on a concrete uncached request
for signal `ip` of shot 1140101005 from the initial state. -/
theorem c7_witness :
    (∀ e ∈ (get_signal env0 initSt 1140101005 "ip" "mst" false).2.2,
      e.isCacheOp = false) ∧
    ((get_signal env0 initSt 1140101005 "ip" "mst" false).2.1).files =
      (initSt : St Unit).files ∧
    ((get_signal env0 initSt 1140101005 "ip" "mst" false).2.1).dirs =
      (initSt : St Unit).dirs ∧
    (∃ e ∈ (get_signal env0 initSt 1140101005 "ip" "mst" false).2.2,
      e.isNetwork = true) ∧
    (∀ v, (get_signal env0 initSt 1140101005 "ip" "mst" false).1 = .ok v →
      ∃ n, Event.remoteEval n (exprForSignal "ip") ∈
        (get_signal env0 initSt 1140101005 "ip" "mst" false).2.2) ∧
    (∀ e ∈ (get_signal_units env0 initSt 1140101005 "ip" "mst" false).2.2,
      e.isCacheOp = false) ∧
    ((get_signal_units env0 initSt 1140101005 "ip" "mst" false).2.1).files =
      (initSt : St Unit).files ∧
    ((get_signal_units env0 initSt 1140101005 "ip" "mst" false).2.1).dirs =
      (initSt : St Unit).dirs ∧
    (∃ e ∈ (get_signal_units env0 initSt 1140101005 "ip" "mst" false).2.2,
      e.isNetwork = true) ∧
    (∀ v, (get_signal_units env0 initSt 1140101005 "ip" "mst" false).1 = .ok v →
      ∃ n, Event.remoteEval n (exprForUnits "ip") ∈
        (get_signal_units env0 initSt 1140101005 "ip" "mst" false).2.2) :=
  c7_no_cache_when_disabled env0 initSt 1140101005 "ip" "mst"

theorem countMk_append (svr : String) (ev1 ev2 : List Event) :
    countMk svr (ev1 ++ ev2) = countMk svr ev1 + countMk svr ev2 := by
  simp [countMk, List.filter_append]

theorem countMk_nil (svr : String) : countMk svr ([] : List Event) = 0 := rfl

theorem countMk_cons (svr : String) (e : Event) (ev : List Event) :
    countMk svr (e :: ev) =
      (if isMkConnFor svr e = true then 1 else 0) + countMk svr ev := by
  by_cases h : isMkConnFor svr e = true
  · simp [countMk, List.filter_cons, h, Nat.add_comm]
  · simp [countMk, List.filter_cons, h]

theorem isMk_mkConn (svr s : String) (n : Nat) :
    isMkConnFor svr (Event.mkConn s n) = (s == svr) := rfl

theorem isMk_connFail (svr s : String) :
    isMkConnFor svr (Event.connFail s) = false := rfl

theorem isMk_close (svr : String) (n : Nat) :
    isMkConnFor svr (Event.closeAllTrees n) = false := rfl

theorem isMk_open (svr : String) (n : Nat) (t : String) (sh : Int) :
    isMkConnFor svr (Event.openTree n t sh) = false := rfl

theorem isMk_eval (svr : String) (n : Nat) (x : String) :
    isMkConnFor svr (Event.remoteEval n x) = false := rfl

theorem gsc_nextId (st : St Val) (n : Nat) (svr : String) :
    get_svr_cached { st with nextId := n } svr = get_svr_cached st svr := rfl

theorem present_update (st : St Val) (svr svr' : String) (c : Conn) (t : String)
    (s : Int) (h : (get_svr_cached st svr).1 ≠ none) :
    (get_svr_cached (update_svr_cache st svr' c t s) svr).1 ≠ none := by
  by_cases hs : svr = svr'
  · subst hs
    rw [gsc_update_self]
    simp
  · rw [gsc_update_ne st svr' svr c t s hs]
    exact h

theorem sw_countMk (env : Env Val) (st : St Val) (c : Conn) (svr' svr tree : String)
    (shot : Int) (t0 : Option String) (s0 : Option Int) (ev0 : List Event) :
    countMk svr (switchAndStore env st c svr' tree shot t0 s0 ev0).2.2 =
      countMk svr ev0 := by
  rcases sw_events env st c svr' tree shot t0 s0 ev0 with h | h <;> rw [h]
  rw [countMk_append]
  rfl

theorem sw_state (env : Env Val) (st : St Val) (c : Conn) (svr tree : String)
    (shot : Int) (t0 : Option String) (s0 : Option Int) (ev0 : List Event) :
    (switchAndStore env st c svr tree shot t0 s0 ev0).2.1 = st ∨
    (switchAndStore env st c svr tree shot t0 s0 ev0).2.1 =
      update_svr_cache st svr c tree shot := by
  simp only [switchAndStore]
  split
  · exact Or.inr rfl
  · split
    · exact Or.inl rfl
    · exact Or.inr rfl

/-- One `get_connection` step: it constructs at most one connection, none
at all if the routed server already has one, table entries are never
dropped, and (when tree-opens succeed) any constructed connection ends
up recorded in the table. -/
theorem gc_step (env : Env Val) (hopen : ∀ a b c, env.openFails a b c = false)
    (st : St Val) (shot : Int) (tree : String) (svr : String) :
    countMk svr (get_connection env st shot tree).2.2 ≤ 1 ∧
    ((get_svr_cached st svr).1 ≠ none →
      countMk svr (get_connection env st shot tree).2.2 = 0) ∧
    ((get_svr_cached st svr).1 ≠ none →
      (get_svr_cached ((get_connection env st shot tree).2.1) svr).1 ≠ none) ∧
    (1 ≤ countMk svr (get_connection env st shot tree).2.2 →
      (get_svr_cached ((get_connection env st shot tree).2.1) svr).1 ≠ none) := by
  rcases gsc_shape st (get_server_for_shot env shot) with ⟨c0, t0, s0, hc⟩ | hc
  · rw [gc_cached_some env st shot tree c0 t0 s0 hc]
    have hcm0 : countMk svr (switchAndStore env st c0 (get_server_for_shot env shot)
        tree shot (some t0) (some s0) []).2.2 = 0 := by
      rw [sw_countMk]
      rfl
    have hst := sw_state env st c0 (get_server_for_shot env shot) tree shot
      (some t0) (some s0) []
    refine ⟨by omega, fun _ => hcm0, fun hp => ?_, fun hcnt => absurd hcnt (by omega)⟩
    rcases hst with h | h <;> rw [h]
    · exact hp
    · exact present_update st svr _ c0 tree shot hp
  · rw [gc_cached_none env st shot tree hc]
    by_cases hcf : env.connFails (get_server_for_shot env shot) = true
    · rw [if_pos hcf]
      refine ⟨?_, fun _ => rfl, fun hp => hp, fun hcnt => absurd hcnt ?_⟩
      · exact Nat.zero_le 1
      · exact Nat.not_succ_le_zero 0
    · rw [if_neg hcf]
      have hpair : ¬((none : Option String) = some tree ∧
          (none : Option Int) = some shot) := by simp
      rw [sw_diff_ok env _ _ _ tree shot _ _ _ hpair (hopen _ _ _)]
      by_cases hsv : get_server_for_shot env shot = svr
      · subst hsv
        have habs : ¬((get_svr_cached st (get_server_for_shot env shot)).1 ≠ none) := by
          rw [hc]
          simp
        refine ⟨?_, fun hp => absurd hp habs, fun hp => absurd hp habs, fun _ => ?_⟩
        · show countMk (get_server_for_shot env shot)
            ([Event.mkConn (get_server_for_shot env shot) st.nextId] ++
              [Event.closeAllTrees st.nextId, Event.openTree st.nextId tree shot]) ≤ 1
          simp [countMk_cons, countMk_append, countMk_nil, isMk_mkConn, isMk_close, isMk_open]
        · show (get_svr_cached (update_svr_cache { st with nextId := st.nextId + 1 }
              (get_server_for_shot env shot) ⟨st.nextId, get_server_for_shot env shot⟩
              tree shot) (get_server_for_shot env shot)).1 ≠ none
          rw [gsc_update_self]
          simp
      · have hz : countMk svr
            ([Event.mkConn (get_server_for_shot env shot) st.nextId] ++
              [Event.closeAllTrees st.nextId, Event.openTree st.nextId tree shot]) = 0 := by
          simp [countMk_cons, countMk_append, countMk_nil, isMk_mkConn, isMk_close, isMk_open, hsv]
        refine ⟨?_, fun _ => hz, fun hp => ?_, fun hcnt => absurd hcnt ?_⟩
        · show countMk svr
            ([Event.mkConn (get_server_for_shot env shot) st.nextId] ++
              [Event.closeAllTrees st.nextId, Event.openTree st.nextId tree shot]) ≤ 1
          omega
        · show (get_svr_cached (update_svr_cache { st with nextId := st.nextId + 1 }
              (get_server_for_shot env shot) ⟨st.nextId, get_server_for_shot env shot⟩
              tree shot) svr).1 ≠ none
          rw [gsc_update_ne { st with nextId := st.nextId + 1 }
            (get_server_for_shot env shot) svr _ tree shot (fun hh => hsv hh.symm),
            gsc_nextId]
          exact hp
        · show ¬(1 ≤ countMk svr
            ([Event.mkConn (get_server_for_shot env shot) st.nextId] ++
              [Event.closeAllTrees st.nextId, Event.openTree st.nextId tree shot]))
          omega

/-- Across any sequence of `get_connection` calls, each server gains at
most one constructed connection, and none at all once its table entry
exists. -/
theorem runOps_count (env : Env Val) (hopen : ∀ a b c, env.openFails a b c = false) :
    ∀ (ops : List Op) (st : St Val) (svr : String),
    countMk svr (runOps env st ops).2 ≤ 1 ∧
    ((get_svr_cached st svr).1 ≠ none → countMk svr (runOps env st ops).2 = 0) := by
  intro ops
  induction ops with
  | nil =>
      intro st svr
      exact ⟨by simp [runOps, countMk], fun _ => by simp [runOps, countMk]⟩
  | cons op rest ih =>
      intro st svr
      obtain ⟨s, t⟩ := op
      simp only [runOps]
      rw [countMk_append]
      obtain ⟨hA, hB, hC, hD⟩ := gc_step env hopen st s t svr
      obtain ⟨ihA, ihB⟩ := ih ((get_connection env st s t).2.1) svr
      constructor
      · by_cases hpres : (get_svr_cached st svr).1 ≠ none
        · have h1 := hB hpres
          have h2 := ihB (hC hpres)
          omega
        · by_cases hcnt : 1 ≤ countMk svr (get_connection env st s t).2.2
          · have h2 := ihB (hD hcnt)
            omega
          · omega
      · intro hpres
        have h1 := hB hpres
        have h2 := ihB (hC hpres)
        omega

/-- C1 counterexample: `current_shot` keeps its own `_AURORA` connection
outside the `_SVR_CONNS` table.  Starting from the initial state,
`get_connection(1140101005, 'mst')` (a current-day shot under
`env0.today` = 2014-01-01) constructs connection 0 to aurora and stores
it in the table; a following `current_shot()` call nevertheless
constructs a second connection (id 1) to the same server, so two live
sessions to aurora exist and two are created in one process lifetime. -/
theorem c1_counterexample :
    lookupA ((get_connection env0 initSt 1140101005 "mst").2.1).svrConns
      "aurora.physics.wisc.edu" = some ⟨0, "aurora.physics.wisc.edu"⟩ ∧
    (current_shot env0 ((get_connection env0 initSt 1140101005 "mst").2.1)).2.2 =
      [Event.mkConn "aurora.physics.wisc.edu" 1,
        Event.remoteEval 1 "current_shot(\"mst\")"] ∧
    countMk "aurora.physics.wisc.edu"
      ((get_connection env0 initSt 1140101005 "mst").2.2 ++
        (current_shot env0 ((get_connection env0 initSt 1140101005 "mst").2.1)).2.2) = 2 :=
  ⟨by rfl, by rfl, by rfl⟩

/-- C1 (amended): within the `get_connection` path the invariant holds —
across any sequence of `get_connection` calls starting from the empty
session table, and provided every `openTree` succeeds, at most one
connection per distinct server address is constructed, each call either
finding the table entry or creating and recording it.  The amendment
excludes `current_shot`, which maintains its own separate `_AURORA`
connection to aurora outside the table (see the counterexample), and
requires tree-opens to succeed, because a connection constructed just
before a failing `openTree` is discarded without being recorded, letting
a later call construct a second one. -/
theorem c1_single_session_per_server (env : Env Val)
    (hopen : ∀ a b c, env.openFails a b c = false) (ops : List Op) (svr : String) :
    countMk svr (runOps env initSt ops).2 ≤ 1 :=
  (runOps_count env hopen ops initSt svr).1

/-- C1 witness: three concrete `get_connection` calls (a repeat and a
historical shot routed to dave) construct at most one aurora
connection. -/
theorem c1_witness :
    countMk "aurora.physics.wisc.edu"
      (runOps env0 initSt [Op.getConn 1140101005 "mst", Op.getConn 1140101005 "mst",
        Op.getConn 1000101001 "mst"]).2 ≤ 1 :=
  c1_single_session_per_server env0 (fun _ _ _ => rfl)
    [Op.getConn 1140101005 "mst", Op.getConn 1140101005 "mst",
      Op.getConn 1000101001 "mst"] "aurora.physics.wisc.edu"

/-- C5 counterexample: the claim quantifies over every calendar date, but
for 1999-01-01 (a perfectly valid `datetime.date`) `min_shot_for_date`
yields the 11-digit number 10990101001 (since `1999 % 1000 + 100 = 1099
≠ 1999 - 1900 = 99`), and `shot_to_date` decodes it to 2999-01-01, not
back to 1999-01-01. -/
theorem c5_counterexample :
    PyDate.valid ⟨1999, 1, 1⟩ ∧
    min_shot_for_date ⟨1999, 1, 1⟩ = 10990101001 ∧
    ¬ min_shot_for_date ⟨1999, 1, 1⟩ < 10000000000 ∧
    shot_to_date (min_shot_for_date ⟨1999, 1, 1⟩) = .ok ⟨2999, 1, 1⟩ ∧
    (⟨2999, 1, 1⟩ : PyDate) ≠ ⟨1999, 1, 1⟩ := by
  refine ⟨by decide, by decide, by decide, by decide, by decide⟩

/-- C5 (amended): for every valid calendar date `d` whose year lies in
2000..2899, `min_shot_for_date d` is a 10-digit integer whose decimal
digit fields encode `(d.year - 1900, d.month, d.day, 1)` as
`(year-1900)*10^7 + month*10^5 + day*10^3 + sequence`, `shot_to_date`
inverts this encoding, and `max_shot_for_date d = min_shot_for_date d +
998` decodes to the same date.  (Outside that year range the code's
`year % 1000 + 100` field differs from `year - 1900` or overflows ten
digits, as the counterexample shows.) -/
theorem c5_shot_date_encoding (dt : PyDate) (hv : dt.valid)
    (hy1 : 2000 ≤ dt.year) (hy2 : dt.year ≤ 2899) :
    (1000000000 ≤ min_shot_for_date dt ∧ min_shot_for_date dt < 10000000000) ∧
    min_shot_for_date dt =
      (dt.year - 1900) * 10000000 + dt.month * 100000 + dt.day * 1000 + 1 ∧
    shot_to_date (min_shot_for_date dt) = .ok dt ∧
    max_shot_for_date dt = min_shot_for_date dt + 998 ∧
    shot_to_date (max_shot_for_date dt) = .ok dt := by
  obtain ⟨y, m, d⟩ := dt
  unfold PyDate.valid dateOk at hv
  simp only at hv hy1 hy2
  obtain ⟨h1, h2, h3, h4, h5, h6⟩ := hv
  have hd : d ≤ 31 := le_trans h6 (daysInMonth_le_31 y m)
  refine ⟨⟨?_, ?_⟩, ?_, ?_, ?_, ?_⟩
  · simp only [min_shot_for_date]
    omega
  · simp only [min_shot_for_date]
    omega
  · simp only [min_shot_for_date]
    omega
  · simp only [min_shot_for_date, shot_to_date, mkDate]
    have hY : ((y % 1000 + 100) * 10000000 + m * 100000 + d * 1000 + 1) / 10000000
        + 1900 = y := by omega
    have hM : (((y % 1000 + 100) * 10000000 + m * 100000 + d * 1000 + 1) / 100000)
        % 100 = m := by omega
    have hD : (((y % 1000 + 100) * 10000000 + m * 100000 + d * 1000 + 1) / 1000)
        % 100 = d := by omega
    rw [hY, hM, hD, if_pos ⟨h1, h2, h3, h4, h5, h6⟩]
  · simp only [max_shot_for_date]
  · simp only [max_shot_for_date, min_shot_for_date, shot_to_date, mkDate]
    have hY : ((y % 1000 + 100) * 10000000 + m * 100000 + d * 1000 + 1 + 998) / 10000000
        + 1900 = y := by omega
    have hM : (((y % 1000 + 100) * 10000000 + m * 100000 + d * 1000 + 1 + 998) / 100000)
        % 100 = m := by omega
    have hD : (((y % 1000 + 100) * 10000000 + m * 100000 + d * 1000 + 1 + 998) / 1000)
        % 100 = d := by omega
    rw [hY, hM, hD, if_pos ⟨h1, h2, h3, h4, h5, h6⟩]

/-- C5 witness: the amended theorem evaluated at 2014-01-01, whose
minimum shot number is 1140101001. -/
theorem c5_witness :
    (1000000000 ≤ min_shot_for_date ⟨2014, 1, 1⟩ ∧
      min_shot_for_date ⟨2014, 1, 1⟩ < 10000000000) ∧
    min_shot_for_date ⟨2014, 1, 1⟩ =
      (2014 - 1900) * 10000000 + 1 * 100000 + 1 * 1000 + 1 ∧
    shot_to_date (min_shot_for_date ⟨2014, 1, 1⟩) = .ok ⟨2014, 1, 1⟩ ∧
    max_shot_for_date ⟨2014, 1, 1⟩ = min_shot_for_date ⟨2014, 1, 1⟩ + 998 ∧
    shot_to_date (max_shot_for_date ⟨2014, 1, 1⟩) = .ok ⟨2014, 1, 1⟩ :=
  c5_shot_date_encoding ⟨2014, 1, 1⟩ (by decide) (by decide) (by decide)

/-- C9: `shot_valid(1140101000)` is false (its sequence-within-day field
is zero) and `shot_valid(1140101001)` is true (in range, nonzero
sequence, decodes to the valid date 2014-01-01). -/
theorem c9_shot_valid_examples :
    shot_valid 1140101000 = false ∧ shot_valid 1140101001 = true ∧
    shot_to_date 1140101001 = .ok ⟨2014, 1, 1⟩ := by
  refine ⟨by decide, by decide, by decide⟩

/-- C10: `shot_valid` is total over the integers — it always returns the
boolean given by the range checks conjoined with the success of the date
decoding; in particular any `ValueError` raised inside `shot_to_date`
(month 13, month 0, day 0, ...) is caught and yields `false`, and no
input makes `shot_valid` itself raise. -/
theorem c10_shot_valid_total (s : Int) :
    shot_valid s =
      (decide (1000101001 ≤ s) && decide (s ≤ 9991212999) &&
        !decide (s % 1000 = 0) && isOkE (shot_to_date s)) := by
  unfold shot_valid
  split
  · rename_i h
    rcases h with h | h | h
    · have e : decide (s ≤ 9991212999) = false := decide_eq_false (by omega)
      simp only [e, Bool.and_false, Bool.false_and]
    · have e : decide (1000101001 ≤ s) = false := decide_eq_false (by omega)
      simp only [e, Bool.and_false, Bool.false_and]
    · have e : decide (s % 1000 = 0) = true := decide_eq_true h
      simp only [e, Bool.not_true, Bool.and_false, Bool.false_and]
  · rename_i h
    push_neg at h
    obtain ⟨h1, h2, h3⟩ := h
    have e1 : decide (1000101001 ≤ s) = true := decide_eq_true (by omega)
    have e2 : decide (s ≤ 9991212999) = true := decide_eq_true (by omega)
    have e3 : decide (s % 1000 = 0) = false := decide_eq_false h3
    rw [e1, e2, e3]
    rcases hst : shot_to_date s with e | d <;> simp [isOkE, hst]

end MST
